import Mathlib

/-!
Shallow embedding of the `runner` module launcher (src/runner/__init__.py)
and proofs of the specification claims about it.

The embedding translates each Python function into a Lean definition over
explicit data:

* `split_argv`  — the argument splitter (`split_argv` in the source), written
  as the loop `splitLoop` over the explicit loop state
  `(remaining argv, is_module_argv flag, script accumulator, module accumulator)`;
* `mod60`, `pretty_time` — the time formatter, with the `range(2)` loop of the
  source unrolled (the loop body runs at most twice, with a `break` when the
  quotient reaches 0);
* the lifecycle machinery (`run`, `aio_run`, `sigint_handler`, `start`,
  `orch_main`) — modelled as trace-producing functions: hooks are abstracted
  by their observable behaviour (`none` = completes, `some e` = raises `e`),
  and each run yields the list of observable events in order.
-/

namespace Runner

/-! ## Argument splitter (source: `split_argv`) -/

/-- Python `arg.startswith('-')`: the first character is the flag marker. -/
def startsDash (s : String) : Bool :=
  match s.data with
  | [] => false
  | c :: _ => c == '-'

/-- Python `arg.find('=') != -1`: the token has an `'='` separator. -/
def hasEq (s : String) : Bool :=
  s.data.contains '='

/--
The loop of `split_argv`, with the loop state explicit.  The Python code
reverses `argv` and pops from the end, i.e. it consumes tokens front to back;
`isModule` is `is_module_argv`, `script` and `module` are the two output
accumulators (Python appends at the end, modelled by `++ [arg]`).
-/
def splitLoop : List String → Bool → List String → List String → List String × List String
  | [], _, script, module => (script, module)
  | arg :: argv, true, script, module => splitLoop argv true script (module ++ [arg])
  | arg :: argv, false, script, module =>
    if startsDash arg then
      if hasEq arg then
        splitLoop argv false (script ++ [arg]) module
      else
        match argv with
        | [] => splitLoop [] false (script ++ [arg]) module
        | b :: argv2 => splitLoop argv2 false (script ++ [arg, b]) module
    else
      splitLoop argv true (script ++ [arg]) module

/-- `split_argv(argv)` from the source: run the loop from the initial state. -/
def split_argv (argv : List String) : List String × List String :=
  splitLoop argv false [] []

/--
Recursive presentation of the same splitter, used to drive the proofs:
this is what `splitLoop` computes relative to its accumulators.
-/
def splitRec : List String → List String × List String
  | [] => ([], [])
  | a :: rest =>
    if startsDash a then
      if hasEq a then
        ((splitRec rest).1.cons a, (splitRec rest).2)
      else
        match rest with
        | [] => ([a], [])
        | b :: rest2 => (a :: b :: (splitRec rest2).1, (splitRec rest2).2)
    else
      ([a], rest)

theorem splitLoop_module (argv script module : List String) :
    splitLoop argv true script module = (script, module ++ argv) := by
  induction argv generalizing module with
  | nil => simp [splitLoop]
  | cons a rest ih => simp [splitLoop, ih]

theorem splitLoop_eq_splitRec (argv script module : List String) :
    splitLoop argv false script module =
      (script ++ (splitRec argv).1, module ++ (splitRec argv).2) := by
  induction argv using splitRec.induct generalizing script module with
  | case1 => simp [splitLoop, splitRec]
  | case2 a rest h1 h2 ih =>
    cases rest <;> simp [splitLoop, splitRec, h1, h2, ih]
  | case3 a h1 h2 =>
    simp [splitLoop, splitRec, h1, h2]
  | case4 a h1 h2 b rest2 ih =>
    simp [splitLoop, splitRec, h1, h2, ih]
  | case5 a rest h1 =>
    cases rest <;> simp [splitLoop, splitRec, h1, splitLoop_module]

theorem split_argv_eq (argv : List String) : split_argv argv = splitRec argv := by
  have h := splitLoop_eq_splitRec argv [] []
  simpa [split_argv] using h

theorem splitRec_append (argv : List String) :
    (splitRec argv).1 ++ (splitRec argv).2 = argv := by
  induction argv using splitRec.induct with
  | case1 => simp [splitRec]
  | case2 a rest h1 h2 ih => cases rest <;> simp_all [splitRec, h1, h2]
  | case3 a h1 h2 => simp [splitRec, h1, h2]
  | case4 a h1 h2 b rest2 ih => simp [splitRec, h1, h2, ih]
  | case5 a rest h1 => cases rest <;> simp [splitRec, h1]

/-! ## Time formatter (source: `mod60`, `pretty_time`) -/

/-- `mod60(t)` from the source: `(math.floor(t / 60), t % 60)`. -/
def mod60 (t : Nat) : Nat × Nat := (t / 60, t % 60)

/-- The Python expression `f'0{v}'[-2:]`: prepend `'0'` and keep the last
two characters. -/
def pad_last2 (v : Nat) : String :=
  let v_s := "0" ++ toString v
  String.mk (v_s.data.reverse.take 2).reverse

/-- `':'.join(out)` from the source. -/
def joinColon : List String → String
  | [] => ""
  | [s] => s
  | s :: rest => s ++ ":" ++ joinColon rest

/--
`pretty_time(t)` from the source.  The `for i in range(2)` loop is unrolled:
the body runs once, and runs a second time only if the quotient `t` is not
yet 0 (the `break`); after the loop the remaining quotient is appended,
zero-padded only when `< 10`; the accumulated fields are reversed and joined
with `':'`.
-/
def pretty_time (t : Nat) : String :=
  let p1 := mod60 t
  let out1 : List String := [pad_last2 p1.2]
  let st :=
    if p1.1 = 0 then (p1.1, out1)
    else
      let p2 := mod60 p1.1
      (p2.1, out1 ++ [pad_last2 p2.2])
  let out := st.2 ++ [if st.1 < 10 then "0" ++ toString st.1 else toString st.1]
  joinColon out.reverse

/-- A natural number printed in (at least) two digits: zero-padded when
`< 10`, printed plainly otherwise. -/
def two_digit (n : Nat) : String :=
  if n < 10 then "0" ++ toString n else toString n

/--
Specification-level formatter, following the spec's words as amended:
fields joined with `':'` in descending significance, minutes and seconds
always two digits, the leading unit padded to two digits exactly when
`< 10`; the hours field reads `"00"` for any input of at least one minute
but under an hour, and only inputs under one minute produce the two-field
form `MM:SS`.
-/
def pretty_time_spec (t : Nat) : String :=
  if t < 60 then joinColon ["00", two_digit t]
  else if t < 3600 then joinColon ["00", two_digit (t / 60), two_digit (t % 60)]
  else joinColon [two_digit (t / 3600), two_digit (t % 3600 / 60), two_digit (t % 60)]

theorem pad_last2_eq_two_digit : ∀ v < 60, pad_last2 v = two_digit v := by decide

theorem zero_append_zero : ("0" : String) ++ toString (0 : Nat) = "00" := rfl

theorem pretty_time_eq_spec (t : Nat) : pretty_time t = pretty_time_spec t := by
  rcases lt_or_le t 60 with h1 | h1
  · have hd : t / 60 = 0 := Nat.div_eq_of_lt h1
    have hm : t % 60 = t := Nat.mod_eq_of_lt h1
    simp [pretty_time, pretty_time_spec, mod60, hd, hm, h1,
      pad_last2_eq_two_digit t h1, zero_append_zero]
  · have hn1 : ¬ t < 60 := by omega
    rcases lt_or_le t 3600 with h2 | h2
    · have hpos : t / 60 ≠ 0 := by
        have : 0 < t / 60 := Nat.div_pos h1 (by norm_num)
        omega
      have hlt : t / 60 < 60 := by
        rw [Nat.div_lt_iff_lt_mul (by norm_num : (0:Nat) < 60)]
        omega
      have hd2 : t / 60 / 60 = 0 := Nat.div_eq_of_lt hlt
      have hm2 : t / 60 % 60 = t / 60 := Nat.mod_eq_of_lt hlt
      simp [pretty_time, pretty_time_spec, mod60, hpos, hd2, hm2, hn1, h2,
        pad_last2_eq_two_digit (t % 60) (Nat.mod_lt _ (by norm_num)),
        pad_last2_eq_two_digit (t / 60) hlt, zero_append_zero]
    · have hn2 : ¬ t < 3600 := by omega
      have hpos : t / 60 ≠ 0 := by
        have : 0 < t / 60 := Nat.div_pos (by omega) (by norm_num)
        omega
      have hdd : t / 60 / 60 = t / 3600 := by
        rw [Nat.div_div_eq_div_mul]
      have hdm : t / 60 % 60 = t % 3600 / 60 := by
        have h := Nat.mod_mul_right_div_self t 60 60
        norm_num at h
        exact h.symm
      have hlt2 : t % 3600 / 60 < 60 := by
        have : t % 3600 < 3600 := Nat.mod_lt _ (by norm_num)
        omega
      simp [pretty_time, pretty_time_spec, mod60, hpos, hdd, hdm, hn1, hn2,
        two_digit,
        pad_last2_eq_two_digit (t % 60) (Nat.mod_lt _ (by norm_num)),
        pad_last2_eq_two_digit (t % 3600 / 60) hlt2]

/-! ## Claims about the splitter and the formatter -/

/--
C10: for every input argument vector, `split_argv` returns a pair of lists
whose concatenation `launcher_args ++ module_args` equals the input vector
exactly: a prefix/suffix decomposition, no token dropped, duplicated or
reordered.
-/
theorem claim_C10_split_partition (argv : List String) :
    (split_argv argv).1 ++ (split_argv argv).2 = argv := by
  rw [split_argv_eq]
  exact splitRec_append argv

/--
C2, counterexample: the claim says the first token that does not start with
`'-'` itself goes to `module_args`, and in particular
`split(["mymodule"]) == ([], ["mymodule"])`; the code instead appends that
boundary token to `launcher_args` (`script_argv.append(arg)` runs before
`is_module_argv` is flipped), so `split(["mymodule"]) == (["mymodule"], [])`.
-/
theorem claim_C2_counterexample :
    split_argv ["mymodule"] ≠ ([], ["mymodule"]) := by decide

/--
C2, amended: the first token reached in the launcher phase that does not
start with `'-'` ends the launcher-argument phase; that token itself is
placed at the end of `launcher_args`, and exactly the tokens after it are
placed in `module_args`, verbatim and in original order; in particular
`split(["mymodule"]) == (["mymodule"], [])`.
-/
theorem claim_C2_amended :
    (∀ (a : String) (rest : List String), startsDash a = false →
        split_argv (a :: rest) = ([a], rest))
    ∧ split_argv ["mymodule"] = (["mymodule"], []) := by
  constructor
  · intro a rest h
    rw [split_argv_eq]
    cases rest <;> simp [splitRec, h]
  · decide

theorem claim_C2_witness :
    split_argv ["mymodule", "a", "b"] = (["mymodule"], ["a", "b"]) :=
  claim_C2_amended.1 "mymodule" ["a", "b"] (by decide)

/--
C9: during the launcher phase of the split, every token that begins with
`'-'` is appended to `launcher_args`; if that flag token contains no `'='`
and a next token exists, the next token is also consumed into
`launcher_args` unconditionally as the flag's value, while a flag token
containing `'='` consumes no extra token (and a trailing `'='`-free flag
with no next token consumes nothing further).
-/
theorem claim_C9_flag_consumption (a : String) (ha : startsDash a = true) :
    (∀ rest : List String, hasEq a = true →
        split_argv (a :: rest) = (a :: (split_argv rest).1, (split_argv rest).2))
    ∧ (∀ (b : String) (rest2 : List String), hasEq a = false →
        split_argv (a :: b :: rest2) =
          (a :: b :: (split_argv rest2).1, (split_argv rest2).2))
    ∧ (hasEq a = false → split_argv [a] = ([a], [])) := by
  refine ⟨fun rest h => ?_, fun b rest2 h => ?_, fun h => ?_⟩
  · cases rest <;> simp [split_argv_eq, splitRec, ha, h]
  · simp [split_argv_eq, splitRec, ha, h]
  · simp [split_argv_eq, splitRec, ha, h]

theorem claim_C9_witness :
    split_argv ["-p=3", "mymodule"] =
      ("-p=3" :: (split_argv ["mymodule"]).1, (split_argv ["mymodule"]).2)
    ∧ split_argv ["-p", "3", "x"] =
      ("-p" :: "3" :: (split_argv ["x"]).1, (split_argv ["x"]).2) :=
  ⟨(claim_C9_flag_consumption "-p=3" (by decide)).1 ["mymodule"] (by decide),
   (claim_C9_flag_consumption "-p" (by decide)).2.1 "3" ["x"] (by decide)⟩

/--
C3, counterexample: the claim says the hours field is omitted when it is
zero, so `pretty_time(60) == "01:00"`; the code appends the remaining
quotient (here `0`, shown `"00"`) after the loop whenever the loop ran a
second reduction, so `pretty_time(60) == "00:01:00"`.
-/
theorem claim_C3_counterexample : pretty_time 60 ≠ "01:00" := by decide

/--
C3, amended: `pretty_time` decomposes its input by at most two base-60
reductions and joins the fields with `':'` in descending significance;
minutes and seconds are always zero-padded to width 2, the leading unit is
zero-padded to width 2 only when it is `< 10`, and the hours field is shown
as `"00"` for any input of at least 60 seconds — it is omitted only when
the total is under one minute (then minutes:seconds are shown); in
particular `pretty_time(0) == "00:00"`, `pretty_time(59) == "00:59"`,
`pretty_time(60) == "00:01:00"`, and `pretty_time(3661) == "01:01:01"`.
-/
theorem claim_C3_amended :
    pretty_time 0 = "00:00" ∧ pretty_time 59 = "00:59"
    ∧ pretty_time 60 = "00:01:00" ∧ pretty_time 3661 = "01:01:01"
    ∧ ∀ t : Nat, pretty_time t = pretty_time_spec t :=
  ⟨by decide, by decide, by decide, by decide, pretty_time_eq_spec⟩

/-! ## Lifecycle model (source: `run`, `aio_run`, `sigint_handler`)

Hooks are abstracted by their observable behaviour: `none` means the hook
completes, `some e` means it raises the exception `e`.  Whether a hook is a
plain function or a coroutine does not change the observable order — the
source drives each coroutine hook to completion before the next hook starts
(`await evt(module)` / `asyncio.run(evt(module))`) — so the distinction is
not part of the model.  A run is modelled by the list of observable events
it produces, in order. -/

/-- How the entry point `main` terminated. -/
inductive MainOut
  | ok
  | err (e : Nat)
  | cancelled
deriving DecidableEq

/-- Observable events of one run. -/
inductive Ev
  | before (i : Nat)
  | mainStart
  | mainEnd (m : MainOut)
  | interrupt
  | after (i : Nat)
deriving DecidableEq

/-- One hook phase (`for evt in …_events: evt(module)`): invoke the hooks
in registration order starting at index `i`; a raising hook ends the phase.
Returns the invocation events and the raised exception, if any. -/
def runHooks (phase : Nat → Ev) : Nat → List (Option Nat) → List Ev × Option Nat
  | _, [] => ([], none)
  | i, none :: hs =>
    let r := runHooks phase (i + 1) hs
    (phase i :: r.1, r.2)
  | i, some e :: _ => ([phase i], some e)

/-- The `MainOut` of a synchronous entry point with behaviour `mb`. -/
def mainOutOf : Option Nat → MainOut
  | none => MainOut.ok
  | some e => MainOut.err e

/--
`run(module, *argv)` from the source: the before-hooks run first (a raising
hook propagates at once — the `try` has not been entered, so nothing else
runs); then `module.main(*argv)`; then, in the `finally`, the after-hooks.
As in Python's `try/finally`, an exception raised by an after-hook replaces
the entry point's exception.  Returns the event trace and the exception
propagating to the caller (`none` for a clean return).
-/
def run (before : List (Option Nat)) (mainB : Option Nat)
    (after : List (Option Nat)) : List Ev × Option Nat :=
  let b := runHooks Ev.before 0 before
  match b.2 with
  | some e => (b.1, some e)
  | none =>
    let a := runHooks Ev.after 0 after
    let res := match a.2 with
      | some e2 => some e2
      | none => mainB
    (b.1 ++ [Ev.mainStart, Ev.mainEnd (mainOutOf mainB)] ++ a.1, res)

/--
`sigint_handler(signal, frame)` from the source, over the process-wide
state it reads: `stop_event` is `none` when no event object exists and
`some b` when one exists with set-flag `b`; `global_task` is `none` when no
task exists and `some c` when one exists whose cancellation has been
requested iff `c`.  `Except.error 1` models `sys.exit(1)`; otherwise the
updated `(stop_event, global_task)` pair is returned.
-/
def sigint_handler (stop_event global_task : Option Bool) :
    Except Nat (Option Bool × Option Bool) :=
  match stop_event with
  | some true => Except.error 1
  | some false =>
    match global_task with
    | some _ => Except.ok (some true, some true)
    | none => Except.ok (some true, none)
  | none =>
    match global_task with
    | some _ => Except.ok (none, some true)
    | none => Except.ok (none, none)

/-- Deliver `n` consecutive SIGINTs to `sigint_handler`, threading the
`(stop_event, global_task)` state; delivery stops at a `sys.exit`.
Returns how many signals were actually delivered and the final state or
the exit code. -/
def deliverInterrupts : Nat → Option Bool × Option Bool →
    Nat × Except Nat (Option Bool × Option Bool)
  | 0, st => (0, Except.ok st)
  | n + 1, st =>
    match sigint_handler st.1 st.2 with
    | Except.error c => (1, Except.error c)
    | Except.ok st2 =>
      let r := deliverInterrupts n st2
      (r.1 + 1, r.2)

/--
`aio_run(module, *argv)` from the source, driven by `asyncio.run`, as a
cooperative single-threaded trace semantics.  The handler is installed,
then the before-hooks are awaited in order (a raising hook propagates
before the `try` is entered, so the task is never created and the
after-hooks never run); then the cancellation event is created unset, the
entry point is scheduled as a task whose `finally` sets the event, and the
supervisor awaits the event.  `ints` SIGINTs are delivered back to back
during that wait, starting from the state
`(stop_event = some false, global_task = some false)`:

* `ints = 0`: the entry point terminates on its own (`m` says how), its
  `finally` sets the event, the wait returns, and the `finally` of
  `aio_run` awaits the after-hooks in order.
* first SIGINT: the handler itself calls `stop_event.set()` and then
  `global_task.cancel()`, so the supervisor's wakeup is queued on the
  event loop's FIFO ready queue ahead of the task's cancellation
  delivery: the supervisor resumes first and its `finally` runs the
  after-hooks while the entry point is still suspended; the cancelled
  entry point only terminates afterwards, during `asyncio.run`'s
  task cleanup.  Hence `Ev.mainEnd m` follows the after-hook events
  (`m` stays a parameter: cancellation is only a request).
* second SIGINT, with the event now set: the handler raises `SystemExit`
  via `sys.exit(1)`.  It unwinds through the event loop into
  `asyncio.run`'s cleanup, which cancels the still-pending tasks and runs
  them to completion: the supervisor's `finally` runs the after-hooks
  (its wakeup from the first SIGINT was queued first), the cancelled
  entry point then terminates, and the process exits with status 1.

The entry point's exception is never retrieved from the task, so the
overall result is `Except.error c` for a process exit with status `c`,
`Except.ok (some e)` when a hook exception `e` propagates out of
`aio_run`, and `Except.ok none` otherwise.
-/
def aio_run (before after : List (Option Nat)) (m : MainOut) (ints : Nat) :
    List Ev × Except Nat (Option Nat) :=
  let b := runHooks Ev.before 0 before
  match b.2 with
  | some e => (b.1, Except.ok (some e))
  | none =>
    let d := deliverInterrupts ints (some false, some false)
    let a := runHooks Ev.after 0 after
    match d.2 with
    | Except.error c =>
      (b.1 ++ [Ev.mainStart] ++ List.replicate d.1 Ev.interrupt
         ++ a.1 ++ [Ev.mainEnd m], Except.error c)
    | Except.ok _ =>
      if d.1 = 0 then
        (b.1 ++ [Ev.mainStart, Ev.mainEnd m] ++ a.1, Except.ok a.2)
      else
        (b.1 ++ [Ev.mainStart] ++ List.replicate d.1 Ev.interrupt
           ++ a.1 ++ [Ev.mainEnd m], Except.ok a.2)

theorem runHooks_all_none (phase : Nat → Ev) :
    ∀ (hs : List (Option Nat)) (i : Nat), (∀ h ∈ hs, h = none) →
      runHooks phase i hs = ((List.range' i hs.length).map phase, none) := by
  intro hs
  induction hs with
  | nil => intro i _; simp [runHooks]
  | cons h t ih =>
    intro i hall
    have hh : h = none := hall h (by simp)
    subst hh
    simp [runHooks, ih (i + 1) (fun x hx => hall x (by simp [hx])),
      List.range'_succ]

theorem runHooks_raises (phase : Nat → Ev) (e : Nat) (rest : List (Option Nat)) :
    ∀ (pre : List (Option Nat)) (i : Nat), (∀ h ∈ pre, h = none) →
      runHooks phase i (pre ++ some e :: rest) =
        ((List.range' i (pre.length + 1)).map phase, some e) := by
  intro pre
  induction pre with
  | nil => intro i _; simp [runHooks, List.range'_succ]
  | cons h t ih =>
    intro i hall
    have hh : h = none := hall h (by simp)
    subst hh
    simp [runHooks, ih (i + 1) (fun x hx => hall x (by simp [hx])),
      List.range'_succ]

theorem run_all_ok (before after : List (Option Nat)) (mainB : Option Nat)
    (hb : ∀ h ∈ before, h = none) (ha : ∀ h ∈ after, h = none) :
    run before mainB after =
      ((List.range before.length).map Ev.before
        ++ [Ev.mainStart, Ev.mainEnd (mainOutOf mainB)]
        ++ (List.range after.length).map Ev.after,
       mainB) := by
  simp [run, runHooks_all_none Ev.before before 0 hb,
    runHooks_all_none Ev.after after 0 ha, List.range_eq_range']

theorem deliverInterrupts_le_one (ints : Nat) (hi : ints ≤ 1) :
    deliverInterrupts ints (some false, some false) =
      (ints, Except.ok (if ints = 0 then (some false, some false)
                        else (some true, some true))) := by
  interval_cases ints <;> simp [deliverInterrupts, sigint_handler]

theorem deliverInterrupts_two (ints : Nat) (hi : 2 ≤ ints) :
    deliverInterrupts ints (some false, some false) = (2, Except.error 1) := by
  obtain ⟨k, rfl⟩ : ∃ k, ints = k + 2 := ⟨ints - 2, by omega⟩
  simp [deliverInterrupts, sigint_handler]

theorem aio_run_zero (before after : List (Option Nat)) (m : MainOut)
    (hb : ∀ h ∈ before, h = none) (ha : ∀ h ∈ after, h = none) :
    aio_run before after m 0 =
      ((List.range before.length).map Ev.before
        ++ [Ev.mainStart, Ev.mainEnd m]
        ++ (List.range after.length).map Ev.after,
       Except.ok none) := by
  simp [aio_run, runHooks_all_none Ev.before before 0 hb,
    runHooks_all_none Ev.after after 0 ha,
    deliverInterrupts_le_one 0 (by omega), List.range_eq_range']

theorem aio_run_one (before after : List (Option Nat)) (m : MainOut)
    (hb : ∀ h ∈ before, h = none) (ha : ∀ h ∈ after, h = none) :
    aio_run before after m 1 =
      ((List.range before.length).map Ev.before
        ++ [Ev.mainStart, Ev.interrupt]
        ++ (List.range after.length).map Ev.after
        ++ [Ev.mainEnd m],
       Except.ok none) := by
  simp [aio_run, runHooks_all_none Ev.before before 0 hb,
    runHooks_all_none Ev.after after 0 ha,
    deliverInterrupts_le_one 1 (by omega), List.range_eq_range',
    List.replicate_succ]

/-- Index of the first occurrence of `e` in a run trace (length if absent). -/
def runIdx (e : Ev) : List Ev → Nat
  | [] => 0
  | x :: xs => if x = e then 0 else runIdx e xs + 1

/-! ## Claims about the lifecycle -/

/--
C1, counterexample: the claim says every registered after-stop hook runs
after the entry point terminates, also when it is cancelled; but on a
single-interrupt asynchronous run the handler's `stop_event.set()` wakes
the supervisor ahead of the task's cancellation delivery (FIFO ready
queue), so the after-stop hook is invoked before the cancelled entry point
terminates: here `Ev.after 0` precedes `Ev.mainEnd`.
-/
theorem claim_C1_counterexample :
    (aio_run [none] [none] MainOut.cancelled 1).1 =
      [Ev.before 0, Ev.mainStart, Ev.interrupt, Ev.after 0,
       Ev.mainEnd MainOut.cancelled]
    ∧ runIdx (Ev.after 0) (aio_run [none] [none] MainOut.cancelled 1).1
        < runIdx (Ev.mainEnd MainOut.cancelled)
            (aio_run [none] [none] MainOut.cancelled 1).1 := by decide

/--
C1, amended: for every run of a loaded unit with hooks that complete,
every registered before-start hook is invoked, in registration order,
before the entry point `main` begins, and each hook of each phase is
invoked exactly once per run, never skipped and never duplicated.  In the
synchronous model (any entry-point outcome), and in the asynchronous model
when the entry point terminates on its own, every after-stop hook runs, in
registration order, after the entry point terminates.  On a
single-interrupt cancellation, the after-stop hooks run in registration
order after the interrupt, but before the cancelled entry point
terminates — the handler's event-set unblocks the supervisor ahead of the
task's cancellation, and the entry point only terminates during the event
loop's cleanup, after the after-hooks.
-/
theorem claim_C1_amended (before after : List (Option Nat))
    (hb : ∀ h ∈ before, h = none) (ha : ∀ h ∈ after, h = none) :
    (∀ mainB : Option Nat,
      (run before mainB after).1 =
        (List.range before.length).map Ev.before
          ++ [Ev.mainStart, Ev.mainEnd (mainOutOf mainB)]
          ++ (List.range after.length).map Ev.after)
    ∧ (∀ m : MainOut,
      (aio_run before after m 0).1 =
        (List.range before.length).map Ev.before
          ++ [Ev.mainStart, Ev.mainEnd m]
          ++ (List.range after.length).map Ev.after)
    ∧ (∀ m : MainOut,
      (aio_run before after m 1).1 =
        (List.range before.length).map Ev.before
          ++ [Ev.mainStart, Ev.interrupt]
          ++ (List.range after.length).map Ev.after
          ++ [Ev.mainEnd m]) :=
  ⟨fun mainB => by rw [run_all_ok before after mainB hb ha],
   fun m => by rw [aio_run_zero before after m hb ha],
   fun m => by rw [aio_run_one before after m hb ha]⟩

theorem claim_C1_witness :
    (run [none, none] (some 7) [none]).1 =
      (List.range 2).map Ev.before
        ++ [Ev.mainStart, Ev.mainEnd (mainOutOf (some 7))]
        ++ (List.range 1).map Ev.after
    ∧ (aio_run [none, none] [none] MainOut.cancelled 1).1 =
      (List.range 2).map Ev.before
        ++ [Ev.mainStart, Ev.interrupt]
        ++ (List.range 1).map Ev.after
        ++ [Ev.mainEnd MainOut.cancelled] :=
  ⟨(claim_C1_amended [none, none] [none] (by simp) (by simp)).1 (some 7),
   (claim_C1_amended [none, none] [none] (by simp) (by simp)).2.2
     MainOut.cancelled⟩

/--
C7: in the synchronous execution model, if the entry point raises `e`, every
after-stop hook still runs — in order, after the entry point terminated —
and afterwards the same error `e` propagates to the caller.
-/
theorem claim_C7_sync_error_cleanup (before after : List (Option Nat)) (e : Nat)
    (hb : ∀ h ∈ before, h = none) (ha : ∀ h ∈ after, h = none) :
    run before (some e) after =
      ((List.range before.length).map Ev.before
        ++ [Ev.mainStart, Ev.mainEnd (MainOut.err e)]
        ++ (List.range after.length).map Ev.after,
       some e) :=
  run_all_ok before after (some e) hb ha

theorem claim_C7_witness :
    run [none] (some 3) [none, none] =
      ((List.range 1).map Ev.before
        ++ [Ev.mainStart, Ev.mainEnd (MainOut.err 3)]
        ++ (List.range 2).map Ev.after, some 3) :=
  claim_C7_sync_error_cleanup [none] [none, none] 3 (by simp) (by simp)

/--
C8: if a registered hook raises during the before-start or the after-stop
phase of a run — synchronous or asynchronous — the remaining hooks of that
phase are not invoked and the failure propagates out of the run, with no
retry: the phase's trace stops exactly at the raising hook (and a
before-phase failure also prevents the entry point and the after-phase from
ever starting).
-/
theorem claim_C8_hook_failure_aborts :
    (∀ (pre rest after : List (Option Nat)) (e : Nat) (mainB : Option Nat),
        (∀ h ∈ pre, h = none) →
        run (pre ++ some e :: rest) mainB after =
          ((List.range (pre.length + 1)).map Ev.before, some e))
    ∧ (∀ (before pre rest : List (Option Nat)) (e : Nat) (mainB : Option Nat),
        (∀ h ∈ before, h = none) → (∀ h ∈ pre, h = none) →
        run before mainB (pre ++ some e :: rest) =
          ((List.range before.length).map Ev.before
            ++ [Ev.mainStart, Ev.mainEnd (mainOutOf mainB)]
            ++ (List.range (pre.length + 1)).map Ev.after, some e))
    ∧ (∀ (pre rest after : List (Option Nat)) (e : Nat) (m : MainOut) (ints : Nat),
        (∀ h ∈ pre, h = none) →
        aio_run (pre ++ some e :: rest) after m ints =
          ((List.range (pre.length + 1)).map Ev.before, Except.ok (some e)))
    ∧ (∀ (before pre rest : List (Option Nat)) (e : Nat) (m : MainOut),
        (∀ h ∈ before, h = none) → (∀ h ∈ pre, h = none) →
        aio_run before (pre ++ some e :: rest) m 0 =
          ((List.range before.length).map Ev.before
            ++ [Ev.mainStart, Ev.mainEnd m]
            ++ (List.range (pre.length + 1)).map Ev.after,
           Except.ok (some e)))
    ∧ (∀ (before pre rest : List (Option Nat)) (e : Nat) (m : MainOut),
        (∀ h ∈ before, h = none) → (∀ h ∈ pre, h = none) →
        aio_run before (pre ++ some e :: rest) m 1 =
          ((List.range before.length).map Ev.before
            ++ [Ev.mainStart, Ev.interrupt]
            ++ (List.range (pre.length + 1)).map Ev.after
            ++ [Ev.mainEnd m],
           Except.ok (some e))) := by
  refine ⟨?_, ?_, ?_, ?_, ?_⟩
  · intro pre rest after e mainB hpre
    simp [run, runHooks_raises Ev.before e rest pre 0 hpre, List.range_eq_range']
  · intro before pre rest e mainB hb hpre
    simp [run, runHooks_all_none Ev.before before 0 hb,
      runHooks_raises Ev.after e rest pre 0 hpre, List.range_eq_range']
  · intro pre rest after e m ints hpre
    simp [aio_run, runHooks_raises Ev.before e rest pre 0 hpre,
      List.range_eq_range']
  · intro before pre rest e m hb hpre
    simp [aio_run, runHooks_all_none Ev.before before 0 hb,
      runHooks_raises Ev.after e rest pre 0 hpre,
      deliverInterrupts_le_one 0 (by omega), List.range_eq_range']
  · intro before pre rest e m hb hpre
    simp [aio_run, runHooks_all_none Ev.before before 0 hb,
      runHooks_raises Ev.after e rest pre 0 hpre,
      deliverInterrupts_le_one 1 (by omega), List.range_eq_range',
      List.replicate_succ]

theorem claim_C8_witness :
    run [none, some 4, none] none [none] =
      ((List.range 2).map Ev.before, some 4)
    ∧ aio_run [none] [some 9] MainOut.ok 0 =
      ((List.range 1).map Ev.before
        ++ [Ev.mainStart, Ev.mainEnd MainOut.ok]
        ++ (List.range 1).map Ev.after,
       Except.ok (some 9))
    ∧ aio_run [none] [some 9] MainOut.cancelled 1 =
      ((List.range 1).map Ev.before
        ++ [Ev.mainStart, Ev.interrupt]
        ++ (List.range 1).map Ev.after
        ++ [Ev.mainEnd MainOut.cancelled],
       Except.ok (some 9)) :=
  ⟨claim_C8_hook_failure_aborts.1 [none] [none] [none] 4 none (by simp),
   claim_C8_hook_failure_aborts.2.2.2.1 [none] [] [] 9 MainOut.ok
     (by simp) (by simp),
   claim_C8_hook_failure_aborts.2.2.2.2 [none] [] [] 9 MainOut.cancelled
     (by simp) (by simp)⟩

/--
C4, counterexample: the claim says a second interrupt with the cancellation
event already set terminates the process with status 1 *with no after-stop
hook observed*; the process does exit with status 1, but `sys.exit(1)`
raises `SystemExit`, which unwinds through `asyncio.run`'s cleanup — the
pending supervisor task is cancelled and its `finally` runs the after-stop
hooks before the exit — so an after-hook event does appear in the trace.
-/
theorem claim_C4_counterexample :
    (aio_run [none] [none] MainOut.cancelled 2).2 = Except.error 1
    ∧ Ev.after 0 ∈ (aio_run [none] [none] MainOut.cancelled 2).1 :=
  ⟨rfl, by decide⟩

/--
C4, amended: if a second interrupt signal is delivered during an active
asynchronous run while the cancellation event is already set, the handler
raises `SystemExit` via `sys.exit(1)` (so `sigint_handler` with a set
`stop_event` exits with status 1 regardless of the task state) and the
process terminates with exit status 1; the after-stop hooks are not
skipped: the `SystemExit` unwinds through the event loop's task cleanup,
which runs the supervisor's `finally`, so every after-stop hook is
observed, once and in registration order, before the process exits.
-/
theorem claim_C4_amended (before after : List (Option Nat)) (m : MainOut)
    (ints : Nat) (hb : ∀ h ∈ before, h = none) (ha : ∀ h ∈ after, h = none)
    (hi : 2 ≤ ints) :
    aio_run before after m ints =
      ((List.range before.length).map Ev.before
        ++ [Ev.mainStart, Ev.interrupt, Ev.interrupt]
        ++ (List.range after.length).map Ev.after
        ++ [Ev.mainEnd m],
       Except.error 1)
    ∧ (∀ gt : Option Bool, sigint_handler (some true) gt = Except.error 1) := by
  refine ⟨?_, fun gt => rfl⟩
  simp [aio_run, runHooks_all_none Ev.before before 0 hb,
    runHooks_all_none Ev.after after 0 ha,
    deliverInterrupts_two ints hi, List.range_eq_range', List.replicate_succ]

theorem claim_C4_witness :
    aio_run [none] [none] MainOut.cancelled 2 =
      ((List.range 1).map Ev.before
        ++ [Ev.mainStart, Ev.interrupt, Ev.interrupt]
        ++ (List.range 1).map Ev.after
        ++ [Ev.mainEnd MainOut.cancelled],
       Except.error 1) :=
  (claim_C4_amended [none] [none] MainOut.cancelled 2 (by simp) (by simp)
    (by decide)).1

/-! ## Run supervisor `start` and the process orchestrator `main` -/

/-- Observable actions of `start`, in order (logging and timing are
excluded glue). -/
inductive StartEv
  | importUnit
  | setEnv (key value : String)
  | parseArgs
  | runUnit
deriving DecidableEq

/-- Python `str(x)` applied to an `Optional[int]`: `str(None) == "None"`. -/
def pyStr : Option Int → String
  | some n => toString n
  | none => "None"

/--
`start(module_name, argv, processes, process_id)` from the source, as the
ordered list of its observable actions: resolve and import the unit
(`import_module(fixed_module_name(module_name))`); then — only when
`process_id` is not `None` — publish `PROCESS_ID = str(process_id)` and
`PROCESSES = str(processes)` into the process environment; then, when the
unit has a `parse_args` capability, replace the arguments with the parsed
object; then run the unit (via `run` or `asyncio.run(aio_run(...))`).
-/
def start (module_name : String) (argv : List String)
    (processes process_id : Option Int) (hasParseArgs : Bool) : List StartEv :=
  [StartEv.importUnit]
    ++ (match process_id with
        | some pid => [StartEv.setEnv "PROCESS_ID" (toString pid),
                       StartEv.setEnv "PROCESSES" (pyStr processes)]
        | none => [])
    ++ (if hasParseArgs then [StartEv.parseArgs] else [])
    ++ [StartEv.runUnit]

/-- Index of the first occurrence of `e` in a trace (length if absent). -/
def evIdx (e : StartEv) : List StartEv → Nat
  | [] => 0
  | x :: xs => if x = e then 0 else evIdx e xs + 1

/--
C5: when `start` is invoked with a replica index `i` (and replica count
`n`), it publishes `PROCESS_ID = str(i)` and `PROCESSES = str(n)` into the
process environment before the loaded unit is run, so the unit's entry
point can read its own identity.  The publication happens after the import
of the unit (`import_module` runs first), and strictly before the run
step, for any module name, arguments, and `parse_args` capability.
-/
theorem claim_C5_replica_identity (module_name : String) (argv : List String)
    (processes : Option Int) (i : Int) (hp : Bool) :
    StartEv.setEnv "PROCESS_ID" (toString i) ∈
        start module_name argv processes (some i) hp
    ∧ StartEv.setEnv "PROCESSES" (pyStr processes) ∈
        start module_name argv processes (some i) hp
    ∧ evIdx (StartEv.setEnv "PROCESS_ID" (toString i))
          (start module_name argv processes (some i) hp)
        < evIdx StartEv.runUnit (start module_name argv processes (some i) hp)
    ∧ evIdx (StartEv.setEnv "PROCESSES" (pyStr processes))
          (start module_name argv processes (some i) hp)
        < evIdx StartEv.runUnit (start module_name argv processes (some i) hp)
    ∧ evIdx StartEv.importUnit (start module_name argv processes (some i) hp)
        < evIdx (StartEv.setEnv "PROCESS_ID" (toString i))
            (start module_name argv processes (some i) hp) := by
  cases hp <;> simp [start, evIdx]

/-- Observable launch decisions of the orchestrator `main`. -/
inductive OrchAction
  | startDirect (module_name : String) (module_argv : List String)
  | spawn (module_name : String) (module_argv : List String)
      (processes : Int) (process_id : Nat)
deriving DecidableEq

/--
The launch phase of `main(script, *argv)` from the source, after argument
splitting and flag parsing produced `processes`, `module_name` and
`module_argv`: when `processes > 1`, spawn one OS process per
`i in range(processes)`, each invoking
`start(module_name, module_argv, processes, i + 1)`; otherwise call
`start(module_name, module_argv)` directly in-process.  (The subsequent
join/terminate supervision loop is outside this model, as is `argparse`.)
-/
def orch_main (processes : Int) (module_name : String)
    (module_argv : List String) : List OrchAction :=
  if 1 < processes then
    (List.range processes.toNat).map
      (fun i => OrchAction.spawn module_name module_argv processes (i + 1))
  else
    [OrchAction.startDirect module_name module_argv]

/-- The replica indices handed to the spawned processes, in spawn order. -/
def spawnIds (l : List OrchAction) : List Nat :=
  l.filterMap fun a =>
    match a with
    | OrchAction.spawn _ _ _ i => some i
    | _ => none

/--
C6: when the orchestrator parses `processes <= 1` it calls `start` directly
in-process with no replica identity; when it parses `processes = N > 1` it
spawns exactly `N` OS processes, the `k`-th (0-based) invoking `start` with
`(module_name, module_args, N, k + 1)`, so the replica identities are
exactly `1..N`: pairwise distinct and covering the full range with no gaps
or duplicates.
-/
theorem claim_C6_orchestrator (p : Int) (name : String) (argv : List String) :
    (p ≤ 1 → orch_main p name argv = [OrchAction.startDirect name argv])
    ∧ (1 < p →
        (orch_main p name argv).length = p.toNat
        ∧ (∀ k, k < p.toNat →
            (orch_main p name argv)[k]? =
              some (OrchAction.spawn name argv p (k + 1)))
        ∧ spawnIds (orch_main p name argv) = List.range' 1 p.toNat
        ∧ (spawnIds (orch_main p name argv)).Nodup
        ∧ (∀ i : Nat, i ∈ spawnIds (orch_main p name argv) ↔
            1 ≤ i ∧ i ≤ p.toNat)) := by
  constructor
  · intro hp
    have h : ¬ 1 < p := by omega
    simp [orch_main, h]
  · intro hp
    have hids : spawnIds (orch_main p name argv) = List.range' 1 p.toNat := by
      simp [orch_main, hp, spawnIds, List.filterMap_map, Function.comp_def]
      rw [show (fun x => some (x + 1) : Nat → Option Nat) = some ∘ (· + 1) from rfl,
        List.filterMap_eq_map, List.range'_eq_map_range]
      exact List.map_congr_left fun x _ => by omega
    refine ⟨by simp [orch_main, hp], fun k hk => ?_, hids, ?_, fun i => ?_⟩
    · simp [orch_main, hp, List.getElem?_map, List.getElem?_range, hk]
    · rw [hids]; exact List.nodup_range' 1 p.toNat
    · rw [hids, List.mem_range'_1]; omega

theorem claim_C6_witness :
    orch_main 1 "m" ["x"] = [OrchAction.startDirect "m" ["x"]]
    ∧ spawnIds (orch_main 3 "m" ["x"]) = List.range' 1 3 :=
  ⟨(claim_C6_orchestrator 1 "m" ["x"]).1 (by decide),
   ((claim_C6_orchestrator 3 "m" ["x"]).2 (by decide)).2.2.1⟩

end Runner
